import Mathlib

/-!
Verification development for the caesar per-structure post-processing engine
(`src/caesar/group.py`).  The Python code is shallowly embedded: the mutable
`Group` object becomes an explicit state record, numpy float arrays become
lists of exact real numbers, and the unit conversions performed through yt
(`.to('kpc')`, `.to('Msun')`, ...) are abstracted away by working throughout
in the consistent physical unit system the code converts into (kpc, kpc/s,
Msun, km/s, K).  Fallible attribute access (`hasattr`/`delattr`) is modelled
with `Option`.
-/

namespace Caesar

/-- Modelled from the spec: `ptype_ints` lives in `caesar/property_getter.py`,
which is not part of the sources; the spec only requires a species tag per
particle with the three species gas, star and dark matter, so the tags are
modelled as three distinct natural-number constants. -/
def ptype_gas : ℕ := 0

/-- Modelled from the spec: dark-matter species tag (see `ptype_gas`). -/
def ptype_dm : ℕ := 1

/-- Modelled from the spec: star species tag (see `ptype_gas`). -/
def ptype_star : ℕ := 4

/-- Policy constant from `group.py` line 8: unbinding enabled for halos. -/
def UNBIND_HALOS : Bool := true

/-- Policy constant from `group.py` line 9: unbinding disabled for galaxies. -/
def UNBIND_GALAXIES : Bool := false

/-- Validity threshold from `group.py` line 10. -/
def MINIMUM_STARS_PER_GALAXY : ℕ := 32

/-- Validity threshold from `group.py` line 11. -/
def MINIMUM_DM_PER_HALO : ℕ := 32

/-- A 3-vector of real numbers; models one row of a numpy `N×3` array. -/
structure Vec3 where
  x : ℝ
  y : ℝ
  z : ℝ

/-- One particle of the particle data table: position, velocity, mass,
species tag (`ptype`) and stable global index (`indexes` column). -/
structure Particle where
  pos : Vec3
  vel : Vec3
  mass : ℝ
  ptype : ℕ
  gindex : ℕ

instance : Inhabited Particle := ⟨⟨⟨0, 0, 0⟩, ⟨0, 0, 0⟩, 0, 0, 0⟩⟩

/-- The `obj_type` tag distinguishing the `Halo` and `Galaxy` subclasses. -/
inductive ObjType where
  | halo
  | galaxy
deriving DecidableEq

/-- `Group.valid` (`group.py` lines 40-47): a halo needs at least
`MINIMUM_DM_PER_HALO` dark-matter particles, a galaxy at least
`MINIMUM_STARS_PER_GALAXY` star particles. -/
def valid (typ : ObjType) (ndm nstar : ℕ) : Bool :=
  if typ = ObjType.halo ∧ ndm < MINIMUM_DM_PER_HALO then false
  else if typ = ObjType.galaxy ∧ nstar < MINIMUM_STARS_PER_GALAXY then false
  else true

/-- `np.where(particle_data['ptype'] == t)[0]` starting at offset `k`:
the ascending list of local positions whose particle has species tag `t`
(`Group._assign_local_indexes`, lines 83-91). -/
def localIdx : List Particle → ℕ → ℕ → List ℕ
  | [], _, _ => []
  | p :: ps, t, k =>
      if p.ptype = t then k :: localIdx ps t (k + 1) else localIdx ps t (k + 1)

/-- `np.sum(particle_data['mass'][ids])`: total mass of the particles at the
given local positions (numpy fancy indexing, `Group._calculate_masses`). -/
def massOver (pd : List Particle) (ids : List ℕ) : ℝ :=
  (ids.map (fun i => (pd.getD i default).mass)).sum

/-- `np.sum(particle_data['mass'])` (`Group._calculate_total_mass`). -/
def massSum (pd : List Particle) : ℝ := (pd.map Particle.mass).sum

/-- Center-of-mass position: per axis `np.sum(mass * pos[:,i]) / mtot`
(`Group._calculate_center_of_mass_quantities`, lines 118-128). -/
noncomputable def comPos (pd : List Particle) (mtot : ℝ) : Vec3 :=
  ⟨(pd.map (fun p => p.mass * p.pos.x)).sum / mtot,
   (pd.map (fun p => p.mass * p.pos.y)).sum / mtot,
   (pd.map (fun p => p.mass * p.pos.z)).sum / mtot⟩

/-- Center-of-mass velocity, same weighting as `comPos`. -/
noncomputable def comVel (pd : List Particle) (mtot : ℝ) : Vec3 :=
  ⟨(pd.map (fun p => p.mass * p.vel.x)).sum / mtot,
   (pd.map (fun p => p.mass * p.vel.y)).sum / mtot,
   (pd.map (fun p => p.mass * p.vel.z)).sum / mtot⟩

/-- Binding energy of one particle (`group.py` lines 146-162):
`energy = -(mass * G * (M_total - mass) / r) + 0.5 * mass * v2` with
`r` the distance to the center-of-mass position and `v2` the squared speed
relative to the center-of-mass velocity. -/
noncomputable def energyOf (G mtot : ℝ) (c cv : Vec3) (p : Particle) : ℝ :=
  -(p.mass * G * (mtot - p.mass) /
      Real.sqrt ((p.pos.x - c.x) ^ 2 + (p.pos.y - c.y) ^ 2 + (p.pos.z - c.z) ^ 2)) +
    0.5 * p.mass *
      ((p.vel.x - cv.x) ^ 2 + (p.vel.y - cv.y) ^ 2 + (p.vel.z - cv.z) ^ 2)

/-- The energy array of a whole particle-data slice. -/
noncomputable def energies (G mtot : ℝ) (c cv : Vec3) (pd : List Particle) : List ℝ :=
  pd.map (energyOf G mtot c cv)

/-- `np.where(energy > 0)[0]` starting at offset `k`: ascending list of
local positions with strictly positive energy (`group.py` line 164). -/
noncomputable def posIdx : List ℝ → ℕ → List ℕ
  | [], _ => []
  | e :: es, k => if 0 < e then k :: posIdx es (k + 1) else posIdx es (k + 1)

/-- The deletion loop `for i in positive[::-1]: del self.particle_indexes[i]`
(`group.py` lines 166-169): successive in-place deletions at the listed
positions, in the order given. -/
def delAt (l : List ℕ) (ids : List ℕ) : List ℕ :=
  ids.foldl (fun acc i => acc.eraseIdx i) l

/-- The specified net effect of one removal pass: keep exactly the entries of
`l` whose energy is not strictly positive, aligned position by position. -/
noncomputable def keptByEnergy : List ℝ → List ℕ → List ℕ
  | e :: es, n :: l => if 0 < e then keptByEnergy es l else n :: keptByEnergy es l
  | _, _ => []

/-- The `unbound_indexes` dictionary: species tag to accumulated list of
global indices.  Modelled as a total function on tags; the code only ever
touches the three species keys. -/
def Ledger := ℕ → List ℕ

/-- The fresh ledger `{gas:[], star:[], dm:[]}` (`group.py` lines 136-141). -/
def emptyLedger : Ledger := fun _ => []

/-- The ledger side of the deletion loop (`group.py` line 168): for each listed
position, append that particle's global index to the ledger entry of its
species, reading from the pre-pass particle data. -/
def ledgerAppend (L : Ledger) (pd : List Particle) (ids : List ℕ) : Ledger :=
  ids.foldl
    (fun M i => fun t =>
      if t = (pd.getD i default).ptype then M t ++ [(pd.getD i default).gindex]
      else M t)
    L

/-- The mutable fields of a `Group` that the unbinding recursion reads and
writes: `particle_indexes`, `particle_data`, the three local membership
lists with their counts, `masses['total']`, center-of-mass position and
velocity, the unbound ledger and the iteration counter. -/
structure UState where
  l : List ℕ
  pd : List Particle
  glist : List ℕ
  slist : List ℕ
  dmlist : List ℕ
  ngas : ℕ
  nstar : ℕ
  ndm : ℕ
  mtot : ℝ
  cpos : Vec3
  cvel : Vec3
  ledger : Ledger
  iters : ℕ

/-- State after `_assign_particle_data` and `_assign_local_indexes` have run
on index list `l` with particle data `pd = l.map pdata`: the membership lists
and their counts are recomputed from the species tags of `pd`. -/
def mkUState (l : List ℕ) (pd : List Particle) (mtot : ℝ) (cpos cvel : Vec3)
    (led : Ledger) (iters : ℕ) : UState :=
  ⟨l, pd, localIdx pd ptype_gas 0, localIdx pd ptype_star 0, localIdx pd ptype_dm 0,
   (localIdx pd ptype_gas 0).length, (localIdx pd ptype_star 0).length,
   (localIdx pd ptype_dm 0).length, mtot, cpos, cvel, led, iters⟩

/-- The recursive body of `Group._unbind` (`group.py` lines 144-179), entered
after the per-kind feature gate and the ledger/counter initialisation.  Each
call is one evaluation pass: compute the energies of the current members
relative to the supplied total mass and center of mass, delete the strictly
positive ones from `l` (highest local position first) while appending their
global indices to the ledger, rebuild the particle data and membership lists,
and recurse after recomputing total mass and center of mass - unless the pass
removed nobody, or the shrunken structure fails `Group.valid`.  At every call
site the code has just rebuilt `particle_data` from `particle_indexes`, so the
pass reads its particle data as `l.map pdata`. -/
noncomputable def unbindLoop (G : ℝ) (pdata : ℕ → Particle) (typ : ObjType)
    (mtot : ℝ) (cpos cvel : Vec3) (led : Ledger) (iters : ℕ) (l : List ℕ) : UState :=
  if hpos : posIdx (energies G mtot cpos cvel (l.map pdata)) 0 = [] then
    mkUState l (l.map pdata) mtot cpos cvel led (iters + 1)
  else
    let pd := l.map pdata
    let rev := (posIdx (energies G mtot cpos cvel pd) 0).reverse
    let led' := ledgerAppend led pd rev
    let l' := delAt l rev
    let pd' := l'.map pdata
    if valid typ (localIdx pd' ptype_dm 0).length (localIdx pd' ptype_star 0).length then
      unbindLoop G pdata typ (massSum pd') (comPos pd' (massSum pd'))
        (comVel pd' (massSum pd')) led' (iters + 1) l'
    else
      mkUState l' pd' mtot cpos cvel led' (iters + 1)
termination_by l.length
decreasing_by
  have hmem : ∀ (es : List ℝ) (k i : ℕ), i ∈ posIdx es k → i < k + es.length := by
    intro es
    induction es with
    | nil => intro k i h; simp [posIdx] at h
    | cons e es ih =>
      intro k i h
      simp only [posIdx] at h
      split at h
      · rcases List.mem_cons.mp h with h' | h'
        · subst h'; simp only [List.length_cons]; omega
        · have := ih (k + 1) i h'
          simp only [List.length_cons]
          omega
      · have := ih (k + 1) i h
        simp only [List.length_cons]
        omega
  have hle : ∀ (ids m : List ℕ), (delAt m ids).length ≤ m.length := by
    intro ids
    induction ids with
    | nil => intro m; simp [delAt]
    | cons i ids ih =>
      intro m
      have h1 : delAt m (i :: ids) = delAt (m.eraseIdx i) ids := by simp [delAt]
      rw [h1]
      exact le_trans (ih _) (List.length_eraseIdx_le m i)
  rcases hrev : (posIdx (energies G mtot cpos cvel (l.map pdata)) 0).reverse with
    _ | ⟨j, rest⟩
  · exact absurd (by simpa using congrArg List.reverse hrev) hpos
  · have hj : j ∈ posIdx (energies G mtot cpos cvel (l.map pdata)) 0 := by
      have hmem' : j ∈ (posIdx (energies G mtot cpos cvel (l.map pdata)) 0).reverse := by
        rw [hrev]; exact List.mem_cons_self _ _
      simpa using hmem'
    have hjl : j < l.length := by
      have := hmem _ 0 j hj
      simpa [energies] using this
    have h2 : delAt l (j :: rest) = delAt (l.eraseIdx j) rest := by simp [delAt]
    rw [h2]
    have h3 := hle rest (l.eraseIdx j)
    have h4 : (l.eraseIdx j).length = l.length - 1 := List.length_eraseIdx_of_lt hjl
    omega

/-- `np.mean` of a list of reals. -/
noncomputable def npMean (xs : List ℝ) : ℝ := xs.sum / xs.length

/-- `np.std`: the square root of the mean squared deviation from the mean. -/
noncomputable def npStd (xs : List ℝ) : ℝ :=
  Real.sqrt ((xs.map (fun v => (v - npMean xs) ^ 2)).sum / xs.length)

/-- `get_sigma` (`group.py` lines 217-222): `0.0` for an empty subset,
otherwise the standard deviation of the speeds minus their mean. -/
noncomputable def getSigma (vs : List ℝ) : ℝ :=
  if vs.length = 0 then 0 else npStd (vs.map (fun v => v - npMean vs))

/-- Particle speed `sqrt(vx^2 + vy^2 + vz^2)` (`group.py` lines 226-228). -/
noncomputable def speedOf (p : Particle) : ℝ :=
  Real.sqrt (p.vel.x ^ 2 + p.vel.y ^ 2 + p.vel.z ^ 2)

/-- The full observable state of a `Group` instance over its lifecycle.
`Option` encodes attribute or dictionary-entry absence: `__init__` creates
empty `masses`, `radii` and `temperatures` dictionaries and the derived
attributes do not exist until their `_calculate_*` method runs; `_cleanup`
deletes the transient buffers again.  The membership lists and their counts
exist only after `_assign_local_indexes`, which always runs first in
`_process_group`; they default to empty before that. -/
structure GState where
  objType : ObjType
  particle_indexes : Option (List ℕ)
  particle_data : Option (List Particle)
  pdataPresent : Bool
  glist : List ℕ
  slist : List ℕ
  dmlist : List ℕ
  ngas : ℕ
  nstar : ℕ
  ndm : ℕ
  mtotal : Option ℝ
  mdm : Option ℝ
  mgas : Option ℝ
  mstellar : Option ℝ
  mbaryon : Option ℝ
  cpos : Option Vec3
  cvel : Option Vec3
  radii_virial : Option ℝ
  radii_r200c : Option ℝ
  vcirc : Option ℝ
  tvirial : Option ℝ
  disp_all : Option ℝ
  disp_dm : Option ℝ
  disp_baryon : Option ℝ
  disp_gas : Option ℝ
  disp_stellar : Option ℝ
  Lvec : Option Vec3
  Ltot : Option ℝ
  spin : Option ℝ
  unbound : Option Ledger
  iters : Option ℕ

/-- A freshly constructed `Halo`/`Galaxy` handed its candidate index list:
only `obj_type` and `particle_indexes` are populated (`Group.__init__` plus
`create_new_group`). -/
def initState (typ : ObjType) (l : List ℕ) : GState :=
  ⟨typ, some l, none, false, [], [], [], 0, 0, 0,
   none, none, none, none, none, none, none,
   none, none, none, none,
   none, none, none, none, none,
   none, none, none, none, none⟩

/-- `Group._assign_particle_data`: slice every column of the particle table by
`particle_indexes` (`group.py` lines 77-81). -/
def assign_particle_data (pdata : ℕ → Particle) (st : GState) : GState :=
  { st with particle_data := some ((st.particle_indexes.getD []).map pdata) }

/-- `Group._assign_local_indexes` (`group.py` lines 83-91): rebuild the three
species membership lists as local positions into `particle_data`, and their
counts. -/
def assign_local_indexes (st : GState) : GState :=
  { st with
    glist := localIdx (st.particle_data.getD []) ptype_gas 0,
    slist := localIdx (st.particle_data.getD []) ptype_star 0,
    dmlist := localIdx (st.particle_data.getD []) ptype_dm 0,
    ngas := (localIdx (st.particle_data.getD []) ptype_gas 0).length,
    nstar := (localIdx (st.particle_data.getD []) ptype_star 0).length,
    ndm := (localIdx (st.particle_data.getD []) ptype_dm 0).length }

/-- `Group.valid` read off a pipeline state. -/
def validG (st : GState) : Bool := valid st.objType st.ndm st.nstar

/-- `Group._calculate_total_mass` (`group.py` lines 101-102). -/
def calculate_total_mass (st : GState) : GState :=
  { st with mtotal := some (massSum (st.particle_data.getD [])) }

/-- `Group._calculate_center_of_mass_quantities` (`group.py` lines 118-128):
mass-weighted means divided by the currently stored `masses['total']`. -/
noncomputable def calculate_com (st : GState) : GState :=
  { st with
    cpos := some (comPos (st.particle_data.getD []) (st.mtotal.getD 0)),
    cvel := some (comVel (st.particle_data.getD []) (st.mtotal.getD 0)) }

/-- `Group._unbind` (`group.py` lines 130-179) at the level of the whole
group state: the per-kind feature gate, the lazy initialisation of
`unbound_indexes` and `unbind_iterations`, then the recursive `unbindLoop`,
whose results are written back into the state. -/
noncomputable def unbind (G : ℝ) (pdata : ℕ → Particle) (st : GState) : GState :=
  if st.objType = ObjType.halo ∧ UNBIND_HALOS = false then st
  else if st.objType = ObjType.galaxy ∧ UNBIND_GALAXIES = false then st
  else
    let u := unbindLoop G pdata st.objType (st.mtotal.getD 0) (st.cpos.getD ⟨0, 0, 0⟩)
      (st.cvel.getD ⟨0, 0, 0⟩) (st.unbound.getD emptyLedger) (st.iters.getD 0)
      (st.particle_indexes.getD [])
    { st with
      particle_indexes := some u.l,
      particle_data := some u.pd,
      glist := u.glist, slist := u.slist, dmlist := u.dmlist,
      ngas := u.ngas, nstar := u.nstar, ndm := u.ndm,
      mtotal := some u.mtot, cpos := some u.cpos, cvel := some u.cvel,
      unbound := some u.ledger, iters := some u.iters }

/-- `Group._calculate_masses` (`group.py` lines 104-116): species masses by
fancy-indexing the mass column with the local membership lists, the baryon
aggregate, then a recomputation of the total. -/
def calculate_masses (st : GState) : GState :=
  { st with
    mdm := some (massOver (st.particle_data.getD []) st.dmlist),
    mgas := some (massOver (st.particle_data.getD []) st.glist),
    mstellar := some (massOver (st.particle_data.getD []) st.slist),
    mbaryon := some (massOver (st.particle_data.getD []) st.glist +
      massOver (st.particle_data.getD []) st.slist),
    mtotal := some (massSum (st.particle_data.getD [])) }

/-- `get_r_vir(deltaC)` (`group.py` lines 186-189):
`(3 M_total / (4 pi rho_crit deltaC)) ** (1/3)` in physical units. -/
noncomputable def get_r_vir (rho_crit mtot deltaC : ℝ) : ℝ :=
  (3.0 * mtot / (4.0 * Real.pi * rho_crit * deltaC)) ^ ((1 : ℝ) / 3)

/-- `Group._calculate_virial_quantities` (`group.py` lines 181-214):
Bryan-Norman virial radius at `deltaC = 18 pi^2`, `r200c` at `deltaC = 200`,
circular velocity `sqrt(G M / r200c)` and the Mo et al. virial temperature
`3.6e5 (v_c / 100)^2`. -/
noncomputable def calculate_virial_quantities (G rho_crit : ℝ) (st : GState) : GState :=
  { st with
    radii_virial := some (get_r_vir rho_crit (st.mtotal.getD 0) (18.0 * Real.pi ^ 2)),
    radii_r200c := some (get_r_vir rho_crit (st.mtotal.getD 0) 200.0),
    vcirc := some (Real.sqrt (G * (st.mtotal.getD 0) /
      get_r_vir rho_crit (st.mtotal.getD 0) 200.0)),
    tvirial := some (3.6e5 * (Real.sqrt (G * (st.mtotal.getD 0) /
      get_r_vir rho_crit (st.mtotal.getD 0) 200.0) / 100.0) ^ 2) }

/-- `Group._calculate_velocity_dispersions` (`group.py` lines 216-239). -/
noncomputable def calculate_velocity_dispersions (st : GState) : GState :=
  { st with
    disp_all := some (getSigma ((st.particle_data.getD []).map speedOf)),
    disp_dm := some (getSigma (((st.particle_data.getD []).filter
      (fun p => p.ptype = ptype_dm)).map speedOf)),
    disp_baryon := some (getSigma (((st.particle_data.getD []).filter
      (fun p => p.ptype = ptype_gas ∨ p.ptype = ptype_star)).map speedOf)),
    disp_gas := some (getSigma (((st.particle_data.getD []).filter
      (fun p => p.ptype = ptype_gas)).map speedOf)),
    disp_stellar := some (getSigma (((st.particle_data.getD []).filter
      (fun p => p.ptype = ptype_star)).map speedOf)) }

/-- `Group._calculate_angular_quantities` (`group.py` lines 242-261):
angular momentum about the center of mass from mass-weighted momenta, its
magnitude, and the Bullock spin parameter with the literal constant
`1.4142135623730951` for the square root of two. -/
noncomputable def calculate_angular_quantities (st : GState) : GState :=
  let pd := st.particle_data.getD []
  let c := st.cpos.getD ⟨0, 0, 0⟩
  let Lx := (pd.map (fun p => (p.pos.y - c.y) * (p.mass * p.vel.z) -
    (p.pos.z - c.z) * (p.mass * p.vel.y))).sum
  let Ly := (pd.map (fun p => (p.pos.z - c.z) * (p.mass * p.vel.x) -
    (p.pos.x - c.x) * (p.mass * p.vel.z))).sum
  let Lz := (pd.map (fun p => (p.pos.x - c.x) * (p.mass * p.vel.y) -
    (p.pos.y - c.y) * (p.mass * p.vel.x))).sum
  { st with
    Lvec := some ⟨Lx, Ly, Lz⟩,
    Ltot := some (Real.sqrt (Lx * Lx + Ly * Ly + Lz * Lz)),
    spin := some (Real.sqrt (Lx * Lx + Ly * Ly + Lz * Lz) /
      (1.4142135623730951 * (st.mtotal.getD 0) * (st.vcirc.getD 0) *
        (st.radii_r200c.getD 0))) }

/-- `Group._assign_global_plists` (`group.py` lines 93-99): reinterpret the
membership lists from local positions to global indices via the `indexes`
column of the particle data. -/
def assign_global_plists (st : GState) : GState :=
  { st with
    glist := st.glist.map (fun i => ((st.particle_data.getD []).getD i default).gindex),
    slist := st.slist.map (fun i => ((st.particle_data.getD []).getD i default).gindex),
    dmlist := st.dmlist.map (fun i => ((st.particle_data.getD []).getD i default).gindex) }

/-- `Group._cleanup` (`group.py` lines 53-56): release the transient buffers
`particle_data`, `particle_indexes` and `_pdata`. -/
def cleanup (st : GState) : GState :=
  { st with particle_data := none, particle_indexes := none, pdataPresent := false }

/-- The first pipeline stage of `Group._process_group` (`group.py` lines
58-61): store `_pdata`, slice the particle table, rebuild membership lists. -/
def stageAssigned (pdata : ℕ → Particle) (st : GState) : GState :=
  assign_local_indexes (assign_particle_data pdata { st with pdataPresent := true })

/-- The second pipeline stage (`group.py` lines 63-66): total mass,
center of mass, then the iterative unbinding procedure. -/
noncomputable def stageUnbound (G : ℝ) (pdata : ℕ → Particle) (st : GState) : GState :=
  unbind G pdata (calculate_com (calculate_total_mass st))

/-- `Group._process_group` (`group.py` lines 58-75): the full pipeline with
its two validity gates and the final cleanup. -/
noncomputable def process_group (G rho_crit : ℝ) (pdata : ℕ → Particle)
    (st0 : GState) : GState :=
  let stA := stageAssigned pdata st0
  cleanup
    (if validG stA then
      let stC := stageUnbound G pdata stA
      if validG stC then
        assign_global_plists (calculate_angular_quantities
          (calculate_velocity_dispersions
            (calculate_virial_quantities G rho_crit (calculate_masses stC))))
      else stC
    else stA)

/-- The names of the lazily restorable membership lists (`GroupList('glist')`,
`GroupList('slist')` on `Group`, `GroupList('dmlist')` on `Halo`). -/
inductive ListName where
  | glist
  | slist
  | dmlist
deriving DecidableEq

/-- The Python values a membership-list backing attribute (`_glist` etc.) can
hold in this code: an `int` placeholder or a sequence of indices. -/
inductive PyVal where
  | pyInt : ℤ → PyVal
  | pyList : List ℕ → PyVal
deriving DecidableEq

/-- The per-instance backing attributes of the three descriptors, plus the
structure id the restore capability is keyed by.  `none` models an absent
attribute (`hasattr` false). -/
structure LState where
  sid : ℕ
  attrs : ListName → Option PyVal

/-- The sentinel test of `GroupList.__get__` (`group.py` lines 18-19): the
attribute is missing, or it holds an `int`. -/
def isSentinel : Option PyVal → Bool
  | none => true
  | some (PyVal.pyInt _) => true
  | some (PyVal.pyList _) => false

/-- `GroupList.__get__` (`group.py` lines 17-22).  Returns the new state, the
value produced by the final `getattr`, and the number of restore calls made.
Modelled from the spec: `restore_single_list` lives in `caesar/loader.py`,
which is not part of the sources; per the spec it fetches the persisted list
for this structure id and list name from the backend and stores it in the
backing attribute, touching no other list. -/
def groupListGet (backend : ℕ → ListName → List ℕ) (st : LState) (n : ListName) :
    LState × PyVal × ℕ :=
  if isSentinel (st.attrs n) then
    ({ st with attrs := fun m => if m = n then some (PyVal.pyList (backend st.sid n))
        else st.attrs m },
     PyVal.pyList (backend st.sid n), 1)
  else
    (st, (st.attrs n).getD (PyVal.pyList []), 0)

/-- `GroupList.__set__` (`group.py` lines 24-25): write the backing attribute
directly. -/
def groupListSet (st : LState) (n : ListName) (v : PyVal) : LState :=
  { st with attrs := fun m => if m = n then some v else st.attrs m }

/-- Concrete particle table used to exercise the mass-breakdown bookkeeping:
row 0 is a gas particle, every other row is a star particle, each of mass one
and at rest at the origin. -/
def cexPdata : ℕ → Particle :=
  fun n => if n = 0 then ⟨⟨0, 0, 0⟩, ⟨0, 0, 0⟩, 1, ptype_gas, n⟩
    else ⟨⟨0, 0, 0⟩, ⟨0, 0, 0⟩, 1, ptype_star, n⟩

/-- The count of a structure's defining species: dark-matter particles for a
halo, star particles for a galaxy - the quantity `Group.valid` thresholds. -/
def definingCount (st : GState) : ℕ :=
  match st.objType with
  | ObjType.halo => st.ndm
  | ObjType.galaxy => st.nstar

/-- Invariants tying the result of the unbinding recursion to its entry
state: the particle data is the slice of the table by the surviving index
list, the membership lists and counts are derived from it, the surviving
indices form a sublist of the entry indices, every ledger entry has only
grown by appending, and the iteration counter advanced by at least one pass
and by at most one pass per entry particle. -/
def loopInv (pdata : ℕ → Particle) (l : List ℕ) (led : Ledger) (iters : ℕ)
    (u : UState) : Prop :=
  u.pd = u.l.map pdata ∧
  u.glist = localIdx u.pd ptype_gas 0 ∧
  u.slist = localIdx u.pd ptype_star 0 ∧
  u.dmlist = localIdx u.pd ptype_dm 0 ∧
  u.ngas = (localIdx u.pd ptype_gas 0).length ∧
  u.nstar = (localIdx u.pd ptype_star 0).length ∧
  u.ndm = (localIdx u.pd ptype_dm 0).length ∧
  List.Sublist u.l l ∧
  (∀ t, ∃ s, u.ledger t = led t ++ s) ∧
  iters + 1 ≤ u.iters ∧
  u.iters ≤ iters + max l.length 1

/-! ### Helper lemmas about the removal pass -/

theorem posIdx_shift (es : List ℝ) (k : ℕ) :
    posIdx es (k + 1) = (posIdx es k).map (· + 1) := by
  induction es generalizing k with
  | nil => simp [posIdx]
  | cons e es ih =>
    by_cases he : 0 < e
    · simp [posIdx, he, ih]
    · simp [posIdx, he, ih]

theorem mem_posIdx_lt {es : List ℝ} {k i : ℕ} (h : i ∈ posIdx es k) :
    i < k + es.length := by
  induction es generalizing k with
  | nil => simp [posIdx] at h
  | cons e es ih =>
    simp only [posIdx] at h
    split at h
    · rcases List.mem_cons.mp h with h' | h'
      · subst h'; simp only [List.length_cons]; omega
      · have := ih h'
        simp only [List.length_cons]
        omega
    · have := ih h
      simp only [List.length_cons]
      omega

theorem delAt_cons_shift (x : ℕ) (l : List ℕ) (ids : List ℕ) :
    delAt (x :: l) (ids.map (· + 1)) = x :: delAt l ids := by
  induction ids generalizing l with
  | nil => simp [delAt]
  | cons i ids ih =>
    simp only [List.map_cons, delAt, List.foldl_cons, List.eraseIdx_cons_succ]
    exact ih (l.eraseIdx i)

theorem delAt_posIdx (es : List ℝ) (l : List ℕ) (h : es.length = l.length) :
    delAt l (posIdx es 0).reverse = keptByEnergy es l := by
  induction es generalizing l with
  | nil =>
    cases l with
    | nil => simp [posIdx, delAt, keptByEnergy]
    | cons x l => simp at h
  | cons e es ih =>
    cases l with
    | nil => simp at h
    | cons x l =>
      have hlen : es.length = l.length := by simpa using h
      by_cases he : 0 < e
      · have h1 : posIdx (e :: es) 0 = 0 :: (posIdx es 0).map (· + 1) := by
          simp [posIdx, he, posIdx_shift]
        rw [h1, List.reverse_cons]
        have h2 : ((posIdx es 0).map (· + 1)).reverse =
            ((posIdx es 0).reverse).map (· + 1) := by
          simp [List.map_reverse]
        rw [h2]
        have h3 : delAt (x :: l) ((((posIdx es 0).reverse).map (· + 1)) ++ [0]) =
            delAt (delAt (x :: l) (((posIdx es 0).reverse).map (· + 1))) [0] := by
          simp [delAt, List.foldl_append]
        rw [h3, delAt_cons_shift]
        have h4 : delAt (x :: delAt l (posIdx es 0).reverse) [0] =
            delAt l (posIdx es 0).reverse := by
          simp [delAt]
        rw [h4, ih l hlen]
        simp [keptByEnergy, he]
      · have h1 : posIdx (e :: es) 0 = (posIdx es 0).map (· + 1) := by
          simp [posIdx, he, posIdx_shift]
        rw [h1]
        have h2 : ((posIdx es 0).map (· + 1)).reverse =
            ((posIdx es 0).reverse).map (· + 1) := by
          simp [List.map_reverse]
        rw [h2, delAt_cons_shift]
        simp [keptByEnergy, he, ih l hlen]

theorem ledgerAppend_apply (pd : List Particle) (ids : List ℕ) (L : Ledger) (t : ℕ) :
    ledgerAppend L pd ids t =
      L t ++ ((ids.map (fun i => pd.getD i default)).filter
        (fun p => t = p.ptype)).map (fun p => p.gindex) := by
  induction ids generalizing L with
  | nil => simp [ledgerAppend]
  | cons i ids ih =>
    simp only [ledgerAppend, List.foldl_cons] at ih ⊢
    rw [ih]
    rw [List.map_cons, List.filter_cons]
    by_cases ht : t = (pd.getD i default).ptype
    · rw [if_pos ht, if_pos (decide_eq_true ht)]
      simp
    · rw [if_neg ht, if_neg (by simpa using ht)]

theorem posIdx_map_getD (es : List ℝ) (pd : List Particle) (h : es.length = pd.length) :
    (posIdx es 0).map (fun i => pd.getD i default) =
      ((es.zip pd).filter (fun q => 0 < q.1)).map Prod.snd := by
  induction es generalizing pd with
  | nil =>
    cases pd with
    | nil => simp [posIdx]
    | cons p pd => simp at h
  | cons e es ih =>
    cases pd with
    | nil => simp at h
    | cons p pd =>
      have hlen : es.length = pd.length := by simpa using h
      have hcomp : ((posIdx es 0).map (· + 1)).map
          (fun i => (p :: pd).getD i default) =
          (posIdx es 0).map (fun i => pd.getD i default) := by
        rw [List.map_map]
        exact List.map_congr_left (fun i _ => by simp)
      by_cases he : 0 < e
      · have h1 : posIdx (e :: es) 0 = 0 :: (posIdx es 0).map (· + 1) := by
          simp [posIdx, he, posIdx_shift]
        rw [h1]
        simp only [List.map_cons, List.getD_cons_zero, hcomp, ih pd hlen]
        simp [List.filter_cons, he]
      · have h1 : posIdx (e :: es) 0 = (posIdx es 0).map (· + 1) := by
          simp [posIdx, he, posIdx_shift]
        rw [h1, hcomp, ih pd hlen]
        simp [List.filter_cons, he]

theorem keptByEnergy_sublist (es : List ℝ) (l : List ℕ) :
    List.Sublist (keptByEnergy es l) l := by
  induction es generalizing l with
  | nil => cases l <;> simp [keptByEnergy]
  | cons e es ih =>
    cases l with
    | nil => simp [keptByEnergy]
    | cons x l =>
      by_cases he : 0 < e
      · simp only [keptByEnergy, if_pos he]
        exact List.Sublist.cons x (ih l)
      · simp only [keptByEnergy, if_neg he]
        exact List.Sublist.cons₂ x (ih l)

theorem keptByEnergy_length_lt (es : List ℝ) (l : List ℕ) (h : es.length = l.length)
    (hne : posIdx es 0 ≠ []) : (keptByEnergy es l).length < l.length := by
  induction es generalizing l with
  | nil => simp [posIdx] at hne
  | cons e es ih =>
    cases l with
    | nil => simp at h
    | cons x l =>
      have hlen : es.length = l.length := by simpa using h
      by_cases he : 0 < e
      · simp only [keptByEnergy, if_pos he]
        have := (keptByEnergy_sublist es l).length_le
        simp only [List.length_cons]
        omega
      · simp only [keptByEnergy, if_neg he, List.length_cons]
        have hne' : posIdx es 0 ≠ [] := by
          intro hcon
          apply hne
          simp [posIdx, he, posIdx_shift, hcon]
        have := ih l hlen hne'
        omega

theorem localIdx_length_le (pd : List Particle) (t k : ℕ) :
    (localIdx pd t k).length ≤ pd.length := by
  induction pd generalizing k with
  | nil => simp [localIdx]
  | cons p ps ih =>
    by_cases hp : p.ptype = t
    · simp only [localIdx, if_pos hp, List.length_cons]
      exact Nat.succ_le_succ (ih (k + 1))
    · simp only [localIdx, if_neg hp, List.length_cons]
      exact le_trans (ih (k + 1)) (Nat.le_succ _)

theorem valid_length_pos {typ : ObjType} {pd : List Particle}
    (h : valid typ (localIdx pd ptype_dm 0).length (localIdx pd ptype_star 0).length
      = true) : 1 ≤ pd.length := by
  have hdm := localIdx_length_le pd ptype_dm 0
  have hst := localIdx_length_le pd ptype_star 0
  cases typ with
  | halo =>
    simp [valid, MINIMUM_DM_PER_HALO] at h
    omega
  | galaxy =>
    simp [valid, MINIMUM_STARS_PER_GALAXY] at h
    omega

theorem unbindLoop_inv (G : ℝ) (pdata : ℕ → Particle) (typ : ObjType) :
    ∀ (n : ℕ) (l : List ℕ), l.length ≤ n →
    ∀ (mtot : ℝ) (cpos cvel : Vec3) (led : Ledger) (iters : ℕ),
    loopInv pdata l led iters (unbindLoop G pdata typ mtot cpos cvel led iters l) := by
  intro n
  induction n with
  | zero =>
    intro l hl mtot cpos cvel led iters
    have hnil : l = [] := List.length_eq_zero.mp (Nat.le_zero.mp hl)
    subst hnil
    rw [unbindLoop.eq_def]
    rw [dif_pos (by simp [energies, posIdx])]
    refine ⟨rfl, rfl, rfl, rfl, rfl, rfl, rfl, List.Sublist.refl _,
      fun t => ⟨[], by simp [mkUState]⟩, ?_, ?_⟩ <;> simp [mkUState]
  | succ n ih =>
    intro l hl mtot cpos cvel led iters
    rw [unbindLoop.eq_def]
    by_cases hpos : posIdx (energies G mtot cpos cvel (l.map pdata)) 0 = []
    · rw [dif_pos hpos]
      refine ⟨rfl, rfl, rfl, rfl, rfl, rfl, rfl, List.Sublist.refl _,
        fun t => ⟨[], by simp [mkUState]⟩, ?_, ?_⟩ <;> simp [mkUState]
    · rw [dif_neg hpos]
      simp only []
      have hlen : (energies G mtot cpos cvel (l.map pdata)).length = l.length := by
        simp [energies]
      have hkept : delAt l (posIdx (energies G mtot cpos cvel (l.map pdata)) 0).reverse =
          keptByEnergy (energies G mtot cpos cvel (l.map pdata)) l :=
        delAt_posIdx _ _ hlen
      have hsub : List.Sublist
          (delAt l (posIdx (energies G mtot cpos cvel (l.map pdata)) 0).reverse) l := by
        rw [hkept]; exact keptByEnergy_sublist _ _
      have hlt : (delAt l (posIdx (energies G mtot cpos cvel (l.map pdata)) 0).reverse).length
          < l.length := by
        rw [hkept]; exact keptByEnergy_length_lt _ _ hlen hpos
      have hled : ∀ t, ∃ s,
          ledgerAppend led (l.map pdata)
            (posIdx (energies G mtot cpos cvel (l.map pdata)) 0).reverse t = led t ++ s :=
        fun t => ⟨_, ledgerAppend_apply _ _ _ _⟩
      by_cases hv : valid typ
          (localIdx ((delAt l (posIdx (energies G mtot cpos cvel (l.map pdata)) 0).reverse).map pdata) ptype_dm 0).length
          (localIdx ((delAt l (posIdx (energies G mtot cpos cvel (l.map pdata)) 0).reverse).map pdata) ptype_star 0).length
      · rw [if_pos hv]
        have h1 : 1 ≤ (delAt l (posIdx (energies G mtot cpos cvel (l.map pdata)) 0).reverse).length := by
          have := valid_length_pos hv
          simpa using this
        have hle' : (delAt l (posIdx (energies G mtot cpos cvel (l.map pdata)) 0).reverse).length ≤ n := by
          omega
        obtain ⟨i1, i2, i3, i4, i5, i6, i7, i8, i9, i10, i11⟩ :=
          ih (delAt l (posIdx (energies G mtot cpos cvel (l.map pdata)) 0).reverse) hle'
            (massSum ((delAt l (posIdx (energies G mtot cpos cvel (l.map pdata)) 0).reverse).map pdata))
            (comPos ((delAt l (posIdx (energies G mtot cpos cvel (l.map pdata)) 0).reverse).map pdata)
              (massSum ((delAt l (posIdx (energies G mtot cpos cvel (l.map pdata)) 0).reverse).map pdata)))
            (comVel ((delAt l (posIdx (energies G mtot cpos cvel (l.map pdata)) 0).reverse).map pdata)
              (massSum ((delAt l (posIdx (energies G mtot cpos cvel (l.map pdata)) 0).reverse).map pdata)))
            (ledgerAppend led (l.map pdata)
              (posIdx (energies G mtot cpos cvel (l.map pdata)) 0).reverse)
            (iters + 1)
        refine ⟨i1, i2, i3, i4, i5, i6, i7, List.Sublist.trans i8 hsub, ?_, by omega, ?_⟩
        · intro t
          obtain ⟨s1, hs1⟩ := i9 t
          obtain ⟨s0, hs0⟩ := hled t
          exact ⟨s0 ++ s1, by rw [hs1, hs0, List.append_assoc]⟩
        · have hmax : max (delAt l (posIdx (energies G mtot cpos cvel (l.map pdata)) 0).reverse).length 1
              = (delAt l (posIdx (energies G mtot cpos cvel (l.map pdata)) 0).reverse).length := by
            omega
          rw [hmax] at i11
          have : 1 ≤ l.length := by omega
          omega
      · rw [if_neg hv]
        refine ⟨rfl, rfl, rfl, rfl, rfl, rfl, rfl, hsub, hled, ?_, ?_⟩ <;>
          simp [mkUState]

/-! ### Claim theorems -/

/-- C1: during each unbinding pass over the current members, the binding
energy of particle `i` is `E_i = -(G * m_i * (M_total - m_i) / r_i) + 0.5 *
m_i * v2_i` with `r_i` the distance from the center-of-mass position and
`v2_i` the squared speed relative to the center-of-mass velocity; the pass
removes every particle with `E_i > 0` and only those, and appends each
removed particle's global index to the unbound ledger entry of its species. -/
theorem unbind_pass_removes_exactly_positive (G mtot : ℝ) (c cv : Vec3)
    (pdata : ℕ → Particle) (l : List ℕ) (led : Ledger) :
    (∀ p : Particle, energyOf G mtot c cv p =
      -(G * p.mass * (mtot - p.mass) /
          Real.sqrt ((p.pos.x - c.x) ^ 2 + (p.pos.y - c.y) ^ 2 + (p.pos.z - c.z) ^ 2)) +
        0.5 * p.mass *
          ((p.vel.x - cv.x) ^ 2 + (p.vel.y - cv.y) ^ 2 + (p.vel.z - cv.z) ^ 2)) ∧
    delAt l (posIdx (energies G mtot c cv (l.map pdata)) 0).reverse =
      keptByEnergy (energies G mtot c cv (l.map pdata)) l ∧
    (∀ t, ledgerAppend led (l.map pdata)
        (posIdx (energies G mtot c cv (l.map pdata)) 0).reverse t =
      led t ++
        (((((energies G mtot c cv (l.map pdata)).zip (l.map pdata)).filter
            (fun q => 0 < q.1)).map Prod.snd).reverse.filter
          (fun p => t = p.ptype)).map (fun p => p.gindex)) := by
  have hlen : (energies G mtot c cv (l.map pdata)).length = l.length := by
    simp [energies]
  have hlen' : (energies G mtot c cv (l.map pdata)).length = (l.map pdata).length := by
    simp [energies]
  refine ⟨fun p => by unfold energyOf; ring_nf, delAt_posIdx _ _ hlen, fun t => ?_⟩
  rw [ledgerAppend_apply]
  have hmap : ((posIdx (energies G mtot c cv (l.map pdata)) 0).reverse.map
      (fun i => (l.map pdata).getD i default)) =
      ((((energies G mtot c cv (l.map pdata)).zip (l.map pdata)).filter
        (fun q => 0 < q.1)).map Prod.snd).reverse := by
    rw [List.map_reverse, posIdx_map_getD _ _ hlen']
  rw [hmap]

/-- C2: the recursive unbinding procedure terminates, recursing only after a
pass that removed at least one particle; starting from a zero iteration
counter, the number of evaluation passes performed on a non-empty candidate
list is at most the initial particle count (and at least one pass runs). -/
theorem unbind_iterations_bounded (G : ℝ) (pdata : ℕ → Particle) (typ : ObjType)
    (mtot : ℝ) (cpos cvel : Vec3) (led : Ledger) (l : List ℕ)
    (h : 1 ≤ l.length) :
    1 ≤ (unbindLoop G pdata typ mtot cpos cvel led 0 l).iters ∧
    (unbindLoop G pdata typ mtot cpos cvel led 0 l).iters ≤ l.length := by
  obtain ⟨-, -, -, -, -, -, -, -, -, h10, h11⟩ :=
    unbindLoop_inv G pdata typ l.length l le_rfl mtot cpos cvel led 0
  constructor
  · omega
  · omega

/-- Witness for C2 at a concrete one-particle candidate list. -/
theorem unbind_iterations_bounded_witness :
    1 ≤ (unbindLoop 1 (fun _ => default) ObjType.halo 1 ⟨0, 0, 0⟩ ⟨0, 0, 0⟩
      emptyLedger 0 [0]).iters ∧
    (unbindLoop 1 (fun _ => default) ObjType.halo 1 ⟨0, 0, 0⟩ ⟨0, 0, 0⟩
      emptyLedger 0 [0]).iters ≤ [0].length :=
  unbind_iterations_bounded 1 (fun _ => default) ObjType.halo 1 ⟨0, 0, 0⟩ ⟨0, 0, 0⟩
    emptyLedger [0] (by decide)

/-- C4: across the iterations of the unbinding procedure the surviving index
list is a sublist of the entry index list (so its length is non-increasing
and entries are only removed, never added), every ledger entry only grows by
appending, and the total ledger size over the three species never
decreases. -/
theorem unbind_monotonic (G : ℝ) (pdata : ℕ → Particle) (typ : ObjType)
    (mtot : ℝ) (cpos cvel : Vec3) (led : Ledger) (iters : ℕ) (l : List ℕ) :
    List.Sublist (unbindLoop G pdata typ mtot cpos cvel led iters l).l l ∧
    (unbindLoop G pdata typ mtot cpos cvel led iters l).l.length ≤ l.length ∧
    (∀ t, ∃ s, (unbindLoop G pdata typ mtot cpos cvel led iters l).ledger t =
      led t ++ s) ∧
    (led ptype_gas).length + (led ptype_star).length + (led ptype_dm).length ≤
      ((unbindLoop G pdata typ mtot cpos cvel led iters l).ledger ptype_gas).length +
      ((unbindLoop G pdata typ mtot cpos cvel led iters l).ledger ptype_star).length +
      ((unbindLoop G pdata typ mtot cpos cvel led iters l).ledger ptype_dm).length := by
  obtain ⟨-, -, -, -, -, -, -, h8, h9, -, -⟩ :=
    unbindLoop_inv G pdata typ l.length l le_rfl mtot cpos cvel led iters
  refine ⟨h8, h8.length_le, h9, ?_⟩
  obtain ⟨s1, hs1⟩ := h9 ptype_gas
  obtain ⟨s2, hs2⟩ := h9 ptype_star
  obtain ⟨s3, hs3⟩ := h9 ptype_dm
  rw [hs1, hs2, hs3]
  simp only [List.length_append]
  omega

/-- C6: under the default policy constants (unbinding enabled for halos,
disabled for galaxies), calling the unbinding step on a galaxy is a no-op:
the whole group state - `particle_indexes`, membership lists, total mass,
center of mass - is returned unchanged and no unbound ledger is created. -/
theorem galaxy_unbind_noop (G : ℝ) (pdata : ℕ → Particle) (st : GState)
    (h : st.objType = ObjType.galaxy) :
    UNBIND_HALOS = true ∧ UNBIND_GALAXIES = false ∧ unbind G pdata st = st := by
  refine ⟨rfl, rfl, ?_⟩
  rw [unbind]
  rw [if_neg (by simp [h]), if_pos (by simp [h, UNBIND_GALAXIES])]

/-- Witness for C6 at a concrete galaxy state. -/
theorem galaxy_unbind_noop_witness :
    UNBIND_HALOS = true ∧ UNBIND_GALAXIES = false ∧
    unbind 1 (fun _ => default) (initState ObjType.galaxy [3]) =
      initState ObjType.galaxy [3] :=
  galaxy_unbind_noop 1 (fun _ => default) (initState ObjType.galaxy [3]) rfl

/-- C5: for a structure whose stored total mass is `M`, the virial-quantity
stage produces the virial radius `(3 M / (4 pi rho_crit (18 pi^2)))^(1/3)`,
`r200c` as the same expression with overdensity 200, the circular velocity
`sqrt(G M / r200c)` and the virial temperature `3.6e5 (v_c / 100)^2`. -/
theorem virial_quantity_formulas (G rho_crit : ℝ) (st : GState) (M : ℝ)
    (h : st.mtotal = some M) :
    (calculate_virial_quantities G rho_crit st).radii_virial =
      some ((3 * M / (4 * Real.pi * rho_crit * (18 * Real.pi ^ 2))) ^ ((1 : ℝ) / 3)) ∧
    (calculate_virial_quantities G rho_crit st).radii_r200c =
      some ((3 * M / (4 * Real.pi * rho_crit * 200)) ^ ((1 : ℝ) / 3)) ∧
    (calculate_virial_quantities G rho_crit st).vcirc =
      some (Real.sqrt (G * M /
        ((3 * M / (4 * Real.pi * rho_crit * 200)) ^ ((1 : ℝ) / 3)))) ∧
    (calculate_virial_quantities G rho_crit st).tvirial =
      some ((3.6 * 10 ^ 5 : ℝ) * (Real.sqrt (G * M /
        ((3 * M / (4 * Real.pi * rho_crit * 200)) ^ ((1 : ℝ) / 3))) / 100) ^ 2) := by
  refine ⟨?_, ?_, ?_, ?_⟩ <;>
    simp [calculate_virial_quantities, get_r_vir, h] <;> norm_num

/-- Witness for C5 at a concrete state with stored total mass 5. -/
theorem virial_quantity_formulas_witness :
    ({ initState ObjType.halo [] with mtotal := some 5 } : GState).mtotal = some 5 ∧
    (calculate_virial_quantities 2 3
        { initState ObjType.halo [] with mtotal := some 5 }).radii_virial =
      some ((3 * 5 / (4 * Real.pi * 3 * (18 * Real.pi ^ 2))) ^ ((1 : ℝ) / 3)) :=
  ⟨rfl, (virial_quantity_formulas 2 3
    { initState ObjType.halo [] with mtotal := some 5 } 5 rfl).1⟩

/-- C7: reading a never-materialized species membership list (sentinel in
the backing attribute) triggers exactly one restore call keyed by the
structure id and list name, stores and returns the fetched sequence; every
subsequent read returns that sequence with no further backend call; a write
replaces the in-memory value directly; and reading one list leaves every
other list's backing attribute untouched. -/
theorem group_list_lazy_restore (backend : ℕ → ListName → List ℕ) (st : LState)
    (n : ListName) (h : isSentinel (st.attrs n) = true) :
    (groupListGet backend st n).2.1 = PyVal.pyList (backend st.sid n) ∧
    (groupListGet backend st n).2.2 = 1 ∧
    (∀ m, (groupListGet backend st n).1.attrs m =
      if m = n then some (PyVal.pyList (backend st.sid n)) else st.attrs m) ∧
    (groupListGet backend st n).1.sid = st.sid ∧
    (groupListGet backend (groupListGet backend st n).1 n).2.2 = 0 ∧
    (groupListGet backend (groupListGet backend st n).1 n).2.1 =
      PyVal.pyList (backend st.sid n) ∧
    (groupListGet backend (groupListGet backend st n).1 n).1 =
      (groupListGet backend st n).1 ∧
    (∀ v, (groupListSet st n v).attrs n = some v) := by
  have h1 : groupListGet backend st n =
      ({ st with attrs := fun m => if m = n then some (PyVal.pyList (backend st.sid n))
          else st.attrs m },
       PyVal.pyList (backend st.sid n), 1) := by
    rw [groupListGet, if_pos h]
  rw [h1]
  refine ⟨rfl, rfl, fun m => rfl, rfl, ?_, ?_, ?_, fun v => by simp [groupListSet]⟩ <;>
    simp [groupListGet, isSentinel]

/-- Witness for C7: a fresh structure state with no attribute materialized. -/
theorem group_list_lazy_restore_witness :
    isSentinel ((⟨7, fun _ => none⟩ : LState).attrs ListName.glist) = true ∧
    (groupListGet (fun s _ => [s, 3]) (⟨7, fun _ => none⟩ : LState)
      ListName.glist).2.1 = PyVal.pyList [7, 3] :=
  ⟨rfl, (group_list_lazy_restore (fun s _ => [s, 3]) ⟨7, fun _ => none⟩
    ListName.glist rfl).1⟩

/-- C10: the not-loaded sentinel is precisely `backing attribute absent or
holding an int`: after writing any non-int value (any index list, including
the empty one) a read returns exactly that value with no restore call, while
after writing an int the next read performs a restore and returns the backend
list instead of the int. -/
theorem group_list_sentinel_semantics (backend : ℕ → ListName → List ℕ)
    (st : LState) (n : ListName) (xs : List ℕ) (k : ℤ) :
    groupListGet backend (groupListSet st n (PyVal.pyList xs)) n =
      (groupListSet st n (PyVal.pyList xs), PyVal.pyList xs, 0) ∧
    (groupListGet backend (groupListSet st n (PyVal.pyInt k)) n).2.2 = 1 ∧
    (groupListGet backend (groupListSet st n (PyVal.pyInt k)) n).2.1 =
      PyVal.pyList (backend st.sid n) := by
  refine ⟨?_, ?_, ?_⟩ <;> simp [groupListGet, groupListSet, isSentinel]

theorem mem_posIdx_ge {es : List ℝ} {k i : ℕ} (h : i ∈ posIdx es k) : k ≤ i := by
  induction es generalizing k with
  | nil => simp [posIdx] at h
  | cons e es ih =>
    simp only [posIdx] at h
    split at h
    · rcases List.mem_cons.mp h with h' | h'
      · omega
      · have := ih h'; omega
    · have := ih h; omega

theorem posIdx_pairwise (es : List ℝ) (k : ℕ) :
    List.Pairwise (· < ·) (posIdx es k) := by
  induction es generalizing k with
  | nil => simp [posIdx]
  | cons e es ih =>
    simp only [posIdx]
    split
    · refine List.Pairwise.cons ?_ (ih (k + 1))
      intro j hj
      have := mem_posIdx_ge hj
      omega
    · exact ih (k + 1)

theorem pairwise_getD_gap (xs : List ℕ) (h : List.Pairwise (· < ·) xs) :
    ∀ (d i : ℕ), i + d < xs.length → xs.getD i 0 + d ≤ xs.getD (i + d) 0 := by
  intro d
  induction d with
  | zero => intro i hd; simp
  | succ d ih =>
    intro i hd
    have h1 : i + d < xs.length := by omega
    have h2 := ih i h1
    have h3 : xs.getD (i + d) 0 < xs.getD (i + d + 1) 0 := by
      rw [List.getD_eq_getElem _ _ h1]
      rw [List.getD_eq_getElem _ _ (show i + d + 1 < xs.length by omega)]
      exact List.pairwise_iff_getElem.mp h (i + d) (i + d + 1) h1 (by omega) (by omega)
    have h4 : xs.getD (i + (d + 1)) 0 = xs.getD (i + d + 1) 0 := by
      have : i + (d + 1) = i + d + 1 := by omega
      rw [this]
    omega

/-- C9: within a single unbinding pass the unbound positions are deleted in
strictly decreasing order of local index, every processed position is still
valid at the moment it is deleted (position plus number of already performed
deletions stays below the original length), and the net effect removes
exactly the particles with strictly positive energy. -/
theorem unbind_pass_deletion_order (G mtot : ℝ) (c cv : Vec3)
    (pdata : ℕ → Particle) (l : List ℕ) :
    List.Chain' (fun a b => b < a)
      (posIdx (energies G mtot c cv (l.map pdata)) 0).reverse ∧
    ((posIdx (energies G mtot c cv (l.map pdata)) 0).reverse.all
      (fun i => decide (i < l.length))) = true ∧
    ((List.range (posIdx (energies G mtot c cv (l.map pdata)) 0).reverse.length).all
      (fun k => decide ((posIdx (energies G mtot c cv (l.map pdata)) 0).reverse.getD k 0
        + k < l.length))) = true ∧
    delAt l (posIdx (energies G mtot c cv (l.map pdata)) 0).reverse =
      keptByEnergy (energies G mtot c cv (l.map pdata)) l := by
  have hlen : (energies G mtot c cv (l.map pdata)).length = l.length := by
    simp [energies]
  have hmemlt : ∀ i ∈ posIdx (energies G mtot c cv (l.map pdata)) 0, i < l.length := by
    intro i hi
    have := mem_posIdx_lt hi
    omega
  refine ⟨?_, ?_, ?_, delAt_posIdx _ _ hlen⟩
  · rw [List.chain'_reverse]
    have hpw := posIdx_pairwise (energies G mtot c cv (l.map pdata)) 0
    have : List.Chain' (· < ·) (posIdx (energies G mtot c cv (l.map pdata)) 0) :=
      hpw.chain'
    exact this
  · rw [List.all_eq_true]
    intro i hi
    rw [decide_eq_true_eq]
    exact hmemlt i (by simpa using hi)
  · rw [List.all_eq_true]
    intro k hk
    rw [decide_eq_true_eq]
    rw [List.mem_range] at hk
    rw [List.length_reverse] at hk
    have hm1k : (posIdx (energies G mtot c cv (l.map pdata)) 0).length - 1 - k +
        k < (posIdx (energies G mtot c cv (l.map pdata)) 0).length := by
      omega
    have hgap := pairwise_getD_gap _ (posIdx_pairwise (energies G mtot c cv (l.map pdata)) 0)
      k ((posIdx (energies G mtot c cv (l.map pdata)) 0).length - 1 - k) hm1k
    have hrevk : (posIdx (energies G mtot c cv (l.map pdata)) 0).reverse.getD k 0 =
        (posIdx (energies G mtot c cv (l.map pdata)) 0).getD
          ((posIdx (energies G mtot c cv (l.map pdata)) 0).length - 1 - k) 0 := by
      rw [List.getD_eq_getElem _ _ (show k <
        (posIdx (energies G mtot c cv (l.map pdata)) 0).reverse.length by
          rw [List.length_reverse]; omega)]
      rw [List.getElem_reverse]
      rw [List.getD_eq_getElem _ _ (show
        (posIdx (energies G mtot c cv (l.map pdata)) 0).length - 1 - k <
        (posIdx (energies G mtot c cv (l.map pdata)) 0).length by omega)]
    have hlast : (posIdx (energies G mtot c cv (l.map pdata)) 0).getD
        ((posIdx (energies G mtot c cv (l.map pdata)) 0).length - 1 - k + k) 0
        < l.length := by
      rw [List.getD_eq_getElem _ _ hm1k]
      exact hmemlt _ (List.getElem_mem _)
    omega

theorem validG_false_iff (st : GState) :
    validG st = false ↔ definingCount st < 32 := by
  cases h : st.objType with
  | halo =>
    simp only [validG, valid, definingCount, h, MINIMUM_DM_PER_HALO,
      MINIMUM_STARS_PER_GALAXY]
    by_cases hd : st.ndm < 32 <;> simp [hd]
  | galaxy =>
    simp only [validG, valid, definingCount, h, MINIMUM_DM_PER_HALO,
      MINIMUM_STARS_PER_GALAXY]
    by_cases hs : st.nstar < 32 <;> simp [hs]

/-- C3: a structure whose defining-species count is below 32 at initial
assignment, or after the unbinding stage, is abandoned: the resulting group
state carries no mass breakdown, no virial quantities, no velocity
dispersions and no angular quantities (all still absent), while the
transient buffers `particle_data`, `particle_indexes` and `_pdata` are
released by cleanup.  The pipeline is a total function, so no exception is
raised on this path. -/
theorem below_threshold_abandoned (G rho_crit : ℝ) (pdata : ℕ → Particle)
    (typ : ObjType) (l : List ℕ)
    (h : definingCount (stageAssigned pdata (initState typ l)) < 32 ∨
      definingCount (stageUnbound G pdata (stageAssigned pdata (initState typ l))) < 32) :
    (process_group G rho_crit pdata (initState typ l)).mdm = none ∧
    (process_group G rho_crit pdata (initState typ l)).mgas = none ∧
    (process_group G rho_crit pdata (initState typ l)).mstellar = none ∧
    (process_group G rho_crit pdata (initState typ l)).mbaryon = none ∧
    (process_group G rho_crit pdata (initState typ l)).radii_virial = none ∧
    (process_group G rho_crit pdata (initState typ l)).radii_r200c = none ∧
    (process_group G rho_crit pdata (initState typ l)).vcirc = none ∧
    (process_group G rho_crit pdata (initState typ l)).tvirial = none ∧
    (process_group G rho_crit pdata (initState typ l)).disp_all = none ∧
    (process_group G rho_crit pdata (initState typ l)).disp_dm = none ∧
    (process_group G rho_crit pdata (initState typ l)).disp_baryon = none ∧
    (process_group G rho_crit pdata (initState typ l)).disp_gas = none ∧
    (process_group G rho_crit pdata (initState typ l)).disp_stellar = none ∧
    (process_group G rho_crit pdata (initState typ l)).Lvec = none ∧
    (process_group G rho_crit pdata (initState typ l)).Ltot = none ∧
    (process_group G rho_crit pdata (initState typ l)).spin = none ∧
    (process_group G rho_crit pdata (initState typ l)).particle_data = none ∧
    (process_group G rho_crit pdata (initState typ l)).particle_indexes = none ∧
    (process_group G rho_crit pdata (initState typ l)).pdataPresent = false := by
  by_cases hA : validG (stageAssigned pdata (initState typ l)) = true
  · have hC : validG (stageUnbound G pdata (stageAssigned pdata (initState typ l)))
        = false := by
      rcases h with h | h
      · exact absurd hA (by simp [(validG_false_iff _).mpr h])
      · exact (validG_false_iff _).mpr h
    have hres : process_group G rho_crit pdata (initState typ l) =
        cleanup (stageUnbound G pdata (stageAssigned pdata (initState typ l))) := by
      simp only [process_group]
      rw [if_pos hA, if_neg (by simp [hC])]
    rw [hres]
    simp only [cleanup, stageUnbound, unbind]
    split_ifs <;>
      simp [calculate_com, calculate_total_mass, stageAssigned,
        assign_local_indexes, assign_particle_data, initState]
  · have hres : process_group G rho_crit pdata (initState typ l) =
        cleanup (stageAssigned pdata (initState typ l)) := by
      simp only [process_group]
      rw [if_neg hA]
    rw [hres]
    simp [cleanup, stageAssigned, assign_local_indexes, assign_particle_data,
      initState]

/-- Witness for C3: a halo candidate with an empty index list has zero
dark-matter particles at initial assignment. -/
theorem below_threshold_abandoned_witness :
    definingCount (stageAssigned (fun _ => default) (initState ObjType.halo [])) < 32 ∧
    (process_group 1 1 (fun _ => default) (initState ObjType.halo [])).mdm = none :=
  ⟨by decide,
   (below_threshold_abandoned 1 1 (fun _ => default) ObjType.halo []
     (Or.inl (by decide))).1⟩

theorem localIdx_shift (ps : List Particle) (t k : ℕ) :
    localIdx ps t (k + 1) = (localIdx ps t k).map (· + 1) := by
  induction ps generalizing k with
  | nil => simp [localIdx]
  | cons p ps ih =>
    by_cases hp : p.ptype = t
    · simp [localIdx, hp, ih]
    · simp [localIdx, hp, ih]

theorem massOver_shift (p : Particle) (ps : List Particle) (ids : List ℕ) :
    massOver (p :: ps) (ids.map (· + 1)) = massOver ps ids := by
  simp only [massOver, List.map_map]
  congr 1

theorem massOver_localIdx (pd : List Particle) (t : ℕ) :
    massOver pd (localIdx pd t 0) =
      ((pd.filter (fun p => p.ptype = t)).map Particle.mass).sum := by
  induction pd with
  | nil => simp [massOver, localIdx]
  | cons p ps ih =>
    simp only [massOver] at ih
    by_cases hp : p.ptype = t
    · have h1 : localIdx (p :: ps) t 0 = 0 :: (localIdx ps t 0).map (· + 1) := by
        simp [localIdx, hp, localIdx_shift]
      have h2 := massOver_shift p ps (localIdx ps t 0)
      simp only [massOver] at h2
      rw [h1]
      simp only [massOver, List.map_cons, List.sum_cons, List.getD_cons_zero]
      rw [h2, ih]
      simp [List.filter_cons, hp]
    · have h1 : localIdx (p :: ps) t 0 = (localIdx ps t 0).map (· + 1) := by
        simp [localIdx, hp, localIdx_shift]
      have h2 := massOver_shift p ps (localIdx ps t 0)
      simp only [massOver] at h2
      rw [h1]
      simp only [massOver]
      rw [h2, ih]
      simp [List.filter_cons, hp]

theorem mass_partition (pd : List Particle)
    (hex : ∀ p ∈ pd, p.ptype = ptype_gas ∨ p.ptype = ptype_star ∨
      p.ptype = ptype_dm) :
    ((pd.filter (fun p => p.ptype = ptype_dm)).map Particle.mass).sum +
      ((pd.filter (fun p => p.ptype = ptype_gas)).map Particle.mass).sum +
      ((pd.filter (fun p => p.ptype = ptype_star)).map Particle.mass).sum =
      massSum pd := by
  induction pd with
  | nil => simp [massSum]
  | cons p ps ih =>
    have hex' : ∀ q ∈ ps, q.ptype = ptype_gas ∨ q.ptype = ptype_star ∨
        q.ptype = ptype_dm := fun q hq => hex q (List.mem_cons_of_mem _ hq)
    have hp := hex p (List.mem_cons_self _ _)
    have hih := ih hex'
    rcases hp with hp | hp | hp <;>
      (simp only [List.filter_cons, hp, massSum, List.map_cons, List.sum_cons,
        ptype_gas, ptype_star, ptype_dm] at hih ⊢
       norm_num
       linarith [hih])

theorem unbind_sync (G : ℝ) (pdata : ℕ → Particle) (st : GState)
    (hpd : st.particle_data = some ((st.particle_indexes.getD []).map pdata))
    (hg : st.glist = localIdx (st.particle_data.getD []) ptype_gas 0)
    (hs : st.slist = localIdx (st.particle_data.getD []) ptype_star 0)
    (hd : st.dmlist = localIdx (st.particle_data.getD []) ptype_dm 0) :
    (unbind G pdata st).particle_data =
      some (((unbind G pdata st).particle_indexes.getD []).map pdata) ∧
    (unbind G pdata st).glist =
      localIdx ((unbind G pdata st).particle_data.getD []) ptype_gas 0 ∧
    (unbind G pdata st).slist =
      localIdx ((unbind G pdata st).particle_data.getD []) ptype_star 0 ∧
    (unbind G pdata st).dmlist =
      localIdx ((unbind G pdata st).particle_data.getD []) ptype_dm 0 := by
  rw [unbind]
  split_ifs
  · exact ⟨hpd, hg, hs, hd⟩
  · exact ⟨hpd, hg, hs, hd⟩
  · obtain ⟨i1, i2, i3, i4, -, -, -, -, -, -, -⟩ :=
      unbindLoop_inv G pdata st.objType (st.particle_indexes.getD []).length
        (st.particle_indexes.getD []) le_rfl (st.mtotal.getD 0)
        (st.cpos.getD ⟨0, 0, 0⟩) (st.cvel.getD ⟨0, 0, 0⟩)
        (st.unbound.getD emptyLedger) (st.iters.getD 0)
    refine ⟨?_, ?_, ?_, ?_⟩ <;> simp [i1, i2, i3, i4]

/-- C8 (amended): for a structure that reaches the Finalized state, and a
particle table whose species tags are exhaustively gas, star or dark matter,
the sum of the species entries dm + gas + stellar of the mass breakdown
(excluding the aggregate baryon entry) equals the total entry. -/
theorem mass_breakdown_partition (G rho_crit : ℝ) (pdata : ℕ → Particle)
    (typ : ObjType) (l : List ℕ)
    (hex : ∀ i, (pdata i).ptype = ptype_gas ∨ (pdata i).ptype = ptype_star ∨
      (pdata i).ptype = ptype_dm)
    (hA : validG (stageAssigned pdata (initState typ l)) = true)
    (hC : validG (stageUnbound G pdata (stageAssigned pdata (initState typ l)))
      = true) :
    (process_group G rho_crit pdata (initState typ l)).mdm.getD 0 +
      (process_group G rho_crit pdata (initState typ l)).mgas.getD 0 +
      (process_group G rho_crit pdata (initState typ l)).mstellar.getD 0 =
      (process_group G rho_crit pdata (initState typ l)).mtotal.getD 0 := by
  have hres : process_group G rho_crit pdata (initState typ l) =
      cleanup (assign_global_plists (calculate_angular_quantities
        (calculate_velocity_dispersions (calculate_virial_quantities G rho_crit
          (calculate_masses
            (stageUnbound G pdata (stageAssigned pdata (initState typ l)))))))) := by
    simp only [process_group]
    rw [if_pos hA, if_pos hC]
  have hpd : (calculate_com (calculate_total_mass
      (stageAssigned pdata (initState typ l)))).particle_data =
      some (((calculate_com (calculate_total_mass
        (stageAssigned pdata (initState typ l)))).particle_indexes.getD []).map
          pdata) := by
    simp [calculate_com, calculate_total_mass, stageAssigned,
      assign_local_indexes, assign_particle_data, initState]
  have hg : (calculate_com (calculate_total_mass
      (stageAssigned pdata (initState typ l)))).glist =
      localIdx ((calculate_com (calculate_total_mass
        (stageAssigned pdata (initState typ l)))).particle_data.getD [])
        ptype_gas 0 := by
    simp [calculate_com, calculate_total_mass, stageAssigned,
      assign_local_indexes, assign_particle_data, initState]
  have hs : (calculate_com (calculate_total_mass
      (stageAssigned pdata (initState typ l)))).slist =
      localIdx ((calculate_com (calculate_total_mass
        (stageAssigned pdata (initState typ l)))).particle_data.getD [])
        ptype_star 0 := by
    simp [calculate_com, calculate_total_mass, stageAssigned,
      assign_local_indexes, assign_particle_data, initState]
  have hd : (calculate_com (calculate_total_mass
      (stageAssigned pdata (initState typ l)))).dmlist =
      localIdx ((calculate_com (calculate_total_mass
        (stageAssigned pdata (initState typ l)))).particle_data.getD [])
        ptype_dm 0 := by
    simp [calculate_com, calculate_total_mass, stageAssigned,
      assign_local_indexes, assign_particle_data, initState]
  obtain ⟨s1, s2, s3, s4⟩ := unbind_sync G pdata
    (calculate_com (calculate_total_mass (stageAssigned pdata (initState typ l))))
    hpd hg hs hd
  rw [hres]
  simp only [cleanup, assign_global_plists, calculate_angular_quantities,
    calculate_velocity_dispersions, calculate_virial_quantities,
    calculate_masses, stageUnbound]
  rw [s2, s3, s4]
  simp only [Option.getD_some]
  rw [massOver_localIdx _ ptype_dm, massOver_localIdx _ ptype_gas,
    massOver_localIdx _ ptype_star]
  apply mass_partition
  intro p hp
  rw [s1] at hp
  simp only [Option.getD_some] at hp
  rw [List.mem_map] at hp
  obtain ⟨i, -, rfl⟩ := hp
  exact hex i

theorem cexPdata_mass (i : ℕ) : (cexPdata i).mass = 1 := by
  unfold cexPdata
  split <;> rfl

theorem massOver_cex (ids : List ℕ) (hids : ∀ i ∈ ids, i < 33) :
    massOver ((List.range 33).map cexPdata) ids = ids.length := by
  induction ids with
  | nil => simp [massOver]
  | cons i ids ih =>
    have hi : i < 33 := hids i (List.mem_cons_self _ _)
    have hgd : ((List.range 33).map cexPdata).getD i default = cexPdata i := by
      rw [List.getD_eq_getElem _ _ (by simpa using hi)]
      simp
    have ih' := ih (fun j hj => hids j (List.mem_cons_of_mem _ hj))
    simp only [massOver, List.map_cons, List.sum_cons] at ih' ⊢
    rw [hgd, cexPdata_mass, ih']
    simp only [List.length_cons]
    push_cast
    ring

theorem massSum_cex : massSum ((List.range 33).map cexPdata) = 33 := by
  have h : ((List.range 33).map cexPdata).map Particle.mass =
      List.replicate 33 (1 : ℝ) := by
    rw [List.map_map]
    refine List.eq_replicate_iff.mpr ⟨by simp, ?_⟩
    intro b hb
    rw [List.mem_map] at hb
    obtain ⟨i, -, rfl⟩ := hb
    exact cexPdata_mass i
  rw [massSum, h, List.sum_replicate]
  norm_num

/-- C8 counterexample: a finalized galaxy with one gas particle and 32 star
particles, each of unit mass, has mass breakdown dm = 0, gas = 1,
stellar = 32, baryon = 33 and total = 33; the sum of all entries other than
total (dm + gas + stellar + baryon) is 66, which differs from the total. -/
theorem mass_breakdown_cex :
    (process_group 1 1 cexPdata (initState ObjType.galaxy (List.range 33))).mdm.getD 0 +
      (process_group 1 1 cexPdata (initState ObjType.galaxy (List.range 33))).mgas.getD 0 +
      (process_group 1 1 cexPdata (initState ObjType.galaxy (List.range 33))).mstellar.getD 0 +
      (process_group 1 1 cexPdata (initState ObjType.galaxy (List.range 33))).mbaryon.getD 0 ≠
      (process_group 1 1 cexPdata (initState ObjType.galaxy (List.range 33))).mtotal.getD 0 := by
  have hA : validG (stageAssigned cexPdata (initState ObjType.galaxy (List.range 33)))
      = true := by decide
  have hC : validG (stageUnbound 1 cexPdata
      (stageAssigned cexPdata (initState ObjType.galaxy (List.range 33)))) = true := by
    decide
  have hres : process_group 1 1 cexPdata (initState ObjType.galaxy (List.range 33)) =
      cleanup (assign_global_plists (calculate_angular_quantities
        (calculate_velocity_dispersions (calculate_virial_quantities 1 1
          (calculate_masses (stageUnbound 1 cexPdata
            (stageAssigned cexPdata (initState ObjType.galaxy (List.range 33))))))))) := by
    simp only [process_group]
    rw [if_pos hA, if_pos hC]
  have hst : stageUnbound 1 cexPdata
      (stageAssigned cexPdata (initState ObjType.galaxy (List.range 33))) =
      calculate_com (calculate_total_mass
        (stageAssigned cexPdata (initState ObjType.galaxy (List.range 33)))) := by
    simp only [stageUnbound, unbind]
    rw [if_neg (by simp [UNBIND_HALOS]), if_pos ?_]
    constructor
    · simp [calculate_com, calculate_total_mass, stageAssigned,
        assign_local_indexes, assign_particle_data, initState]
    · rfl
  have hpdX : (calculate_com (calculate_total_mass
      (stageAssigned cexPdata (initState ObjType.galaxy (List.range 33))))).particle_data
      = some ((List.range 33).map cexPdata) := by
    simp [calculate_com, calculate_total_mass, stageAssigned,
      assign_local_indexes, assign_particle_data, initState]
  have hdmX : (calculate_com (calculate_total_mass
      (stageAssigned cexPdata (initState ObjType.galaxy (List.range 33))))).dmlist
      = [] := by decide
  have hgX : (calculate_com (calculate_total_mass
      (stageAssigned cexPdata (initState ObjType.galaxy (List.range 33))))).glist
      = [0] := by decide
  have hsX : (calculate_com (calculate_total_mass
      (stageAssigned cexPdata (initState ObjType.galaxy (List.range 33))))).slist
      = List.range' 1 32 := by decide
  rw [hres, hst]
  simp only [cleanup, assign_global_plists, calculate_angular_quantities,
    calculate_velocity_dispersions, calculate_virial_quantities, calculate_masses]
  rw [hpdX, hdmX, hgX, hsX]
  simp only [Option.getD_some]
  have e1 : massOver ((List.range 33).map cexPdata) [] = 0 := by simp [massOver]
  have e2 : massOver ((List.range 33).map cexPdata) [0] = 1 := by
    have := massOver_cex [0] (by intro i hi; simp at hi; omega)
    simpa using this
  have e3 : massOver ((List.range 33).map cexPdata) (List.range' 1 32) = 32 := by
    have := massOver_cex (List.range' 1 32) (by
      intro i hi
      rw [List.mem_range'] at hi
      obtain ⟨j, hj, rfl⟩ := hi
      omega)
    simpa using this
  rw [e1, e2, e3, massSum_cex]
  norm_num

/-- Witness for the amended C8 at the concrete finalized galaxy. -/
theorem mass_breakdown_partition_witness :
    (∀ i, (cexPdata i).ptype = ptype_gas ∨ (cexPdata i).ptype = ptype_star ∨
      (cexPdata i).ptype = ptype_dm) ∧
    validG (stageAssigned cexPdata (initState ObjType.galaxy (List.range 33))) = true ∧
    validG (stageUnbound 1 cexPdata
      (stageAssigned cexPdata (initState ObjType.galaxy (List.range 33)))) = true ∧
    (process_group 1 1 cexPdata (initState ObjType.galaxy (List.range 33))).mdm.getD 0 +
      (process_group 1 1 cexPdata (initState ObjType.galaxy (List.range 33))).mgas.getD 0 +
      (process_group 1 1 cexPdata (initState ObjType.galaxy (List.range 33))).mstellar.getD 0 =
      (process_group 1 1 cexPdata (initState ObjType.galaxy (List.range 33))).mtotal.getD 0 := by
  have hex : ∀ i, (cexPdata i).ptype = ptype_gas ∨ (cexPdata i).ptype = ptype_star ∨
      (cexPdata i).ptype = ptype_dm := by
    intro i
    by_cases hi : i = 0 <;> simp [cexPdata, hi, ptype_gas, ptype_star, ptype_dm]
  exact ⟨hex, by decide, by decide,
    mass_breakdown_partition 1 1 cexPdata ObjType.galaxy (List.range 33) hex
      (by decide) (by decide)⟩

end Caesar
